import Mathlib

/-!
Shallow embedding of the matchmaking and session-lifecycle engine of the
anonymous-chat application (client hook `useChat` plus the SQL functions and
constraints of its storage layer), together with theorems checking the
natural-language specification against it.

Timestamps are modelled as natural numbers (one unit = one second), record
identifiers as natural numbers drawn from a store-level counter, and the
three record collections as lists inside a `Store` value.  Each operation is
translated from the source: the SQL function `cleanup_offline_participants`,
the RPC `update_participant_heartbeat`, and the client operations
`findOnlineCompatiblePartner`, `createMatchedSession`, `startChat`,
`sendMessage`, `skipChat`, `stopChat`, the message hydration `loadMessages`,
the message-feed insert handler, and the partner-status handler.
-/

namespace HiddenVoices

inductive GenderType
  | male
  | female
  | any
deriving DecidableEq, Repr

inductive ChatType
  | text
  | audio
  | video
deriving DecidableEq, Repr

inductive SessionStatus
  | waiting
  | matched
  | ended
deriving DecidableEq, Repr

structure Participant where
  id : Nat
  session_id : Option Nat
  name : String
  gender : GenderType
  preferred_gender : GenderType
  is_waiting : Bool
  is_online : Bool
  last_seen : Nat
  joined_at : Nat
  left_at : Option Nat
deriving DecidableEq, Repr

structure ChatSession where
  id : Nat
  session_type : ChatType
  status : SessionStatus
  created_at : Nat
  ended_at : Option Nat
  updated_at : Nat
deriving DecidableEq, Repr

structure Message where
  id : Nat
  session_id : Nat
  participant_id : Nat
  content : String
  sent_at : Nat
deriving DecidableEq, Repr

/-- The durable store: the three record collections plus a counter supplying
fresh identifiers for inserted rows. -/
structure Store where
  participants : List Participant
  sessions : List ChatSession
  messages : List Message
  nextId : Nat
deriving DecidableEq, Repr

/-- The JavaScript `trim()` used on names and message content: strip leading
and trailing whitespace.  (Defined over the character list so that it
evaluates inside the kernel.) -/
def strTrim (s : String) : String :=
  String.mk (((s.data.dropWhile Char.isWhitespace).reverse.dropWhile
    Char.isWhitespace).reverse)

/-- Step 1 of the SQL function `cleanup_offline_participants`, per record:
a participant not seen for more than 30 seconds and still online is set
offline and not waiting. -/
def reapParticipant (now : Nat) (p : Participant) : Participant :=
  if p.last_seen + 30 < now ∧ p.is_online = true then
    { p with is_online := false, is_waiting := false }
  else p

/-- Participants currently referencing session `sid` as their bound session. -/
def boundTo (ps : List Participant) (sid : Nat) : List Participant :=
  ps.filter (fun p => p.session_id == some sid)

/-- Step 2 of `cleanup_offline_participants`, per session: a matched session
whose participant group is non-empty and entirely offline is ended (the SQL
subquery groups by `session_id`, so a session referenced by no participant is
never selected).  The `updated_at` bump is the table trigger. -/
def reapSession (now : Nat) (ps : List Participant) (s : ChatSession) : ChatSession :=
  if s.status = SessionStatus.matched ∧ boundTo ps s.id ≠ [] ∧
      (∀ p ∈ boundTo ps s.id, p.is_online = false) then
    { s with status := SessionStatus.ended, ended_at := some now, updated_at := now }
  else s

/-- The SQL function `cleanup_offline_participants`: reap stale participants,
then end matched sessions whose bound participants are all offline (the
second UPDATE sees the participant rows written by the first). -/
def cleanup_offline_participants (now : Nat) (st : Store) : Store :=
  let ps := st.participants.map (reapParticipant now)
  { st with participants := ps, sessions := st.sessions.map (reapSession now ps) }

/-- The RPC `update_participant_heartbeat`, per record. -/
def heartbeatRec (now : Nat) (pid : Nat) (p : Participant) : Participant :=
  if p.id = pid then { p with last_seen := now, is_online := true } else p

/-- The RPC `update_participant_heartbeat`: mark the participant live now. -/
def update_participant_heartbeat (now : Nat) (pid : Nat) (st : Store) : Store :=
  { st with participants := st.participants.map (heartbeatRec now pid) }

/-- One directional gender test from the matching filter:
the chooser accepts gender `g` when its preference is `any` or equals `g`. -/
def genderOk (pref g : GenderType) : Bool :=
  pref == GenderType.any || pref == g

/-- The mutual-compatibility filter of `findOnlineCompatiblePartner`:
`partnerWantsMe && iWantPartner`. -/
def mutuallyCompatible (partner seeker : Participant) : Bool :=
  genderOk partner.preferred_gender seeker.gender &&
    genderOk seeker.preferred_gender partner.gender

/-- The row filter of the candidate query: waiting, online, not the seeker,
and seen within the last 30 seconds (`last_seen >= now - 30s`). -/
def eligibleCandidate (now : Nat) (seeker p : Participant) : Bool :=
  p.is_waiting && p.is_online && (p.id != seeker.id) &&
    decide (now ≤ p.last_seen + 30)

/-- Comparison used by the candidate query's `order by joined_at asc`. -/
def joinedLe (p q : Participant) : Prop :=
  p.joined_at ≤ q.joined_at

instance : DecidableRel joinedLe :=
  fun p q => inferInstanceAs (Decidable (p.joined_at ≤ q.joined_at))

instance : IsTotal Participant joinedLe :=
  ⟨fun p q => Nat.le_total p.joined_at q.joined_at⟩

instance : IsTrans Participant joinedLe :=
  ⟨fun _ _ _ h1 h2 => Nat.le_trans h1 h2⟩

/-- The surviving candidates of one search: eligible rows, ordered by
`joined_at` (ties kept in store order), limited to 20, then filtered for
mutual compatibility in client code. -/
def survivorWindow (now : Nat) (seeker : Participant) (ps : List Participant) :
    List Participant :=
  ((List.insertionSort joinedLe (ps.filter (eligibleCandidate now seeker))).take 20).filter
    (fun partner => mutuallyCompatible partner seeker)

/-- The client operation `findOnlineCompatiblePartner`: it first invokes the
`cleanup_offline_participants` RPC, then runs the read-only candidate query
and returns the first mutually compatible row, if any. -/
def findOnlineCompatiblePartner (now : Nat) (seeker : Participant) (st : Store) :
    Store × Option Participant :=
  let st1 := cleanup_offline_participants now st
  (st1, (survivorWindow now seeker st1.participants).head?)

/-- The participant update of `createMatchedSession`, per record: any row
whose id is in the two-element list is bound to the session, taken out of the
waiting pool, and marked live; there is no condition on its current state. -/
def bindParticipant (now sid : Nat) (ids : List Nat) (p : Participant) : Participant :=
  if p.id ∈ ids then
    { p with session_id := some sid, is_waiting := false, last_seen := now }
  else p

/-- The client operation `createMatchedSession`: insert a session already in
`matched` status, then update both participant rows by id.  The flag
`updateFails` injects the only failure the code reacts to — an error returned
by the participant update — in which case the just-created session row is
deleted and `null` is returned. -/
def createMatchedSession (now : Nat) (ct : ChatType) (p1 p2 : Participant)
    (updateFails : Bool) (st : Store) : Store × Option ChatSession :=
  let sid := st.nextId
  let sess : ChatSession :=
    { id := sid, session_type := ct, status := SessionStatus.matched,
      created_at := now, ended_at := none, updated_at := now }
  let st1 : Store := { st with sessions := st.sessions ++ [sess], nextId := st.nextId + 1 }
  if updateFails then
    ({ st1 with sessions := st1.sessions.filter (fun s => s.id != sid) }, none)
  else
    ({ st1 with participants := st1.participants.map (bindParticipant now sid [p1.id, p2.id]) },
      some sess)

/-- The session update shared by `skipChat`, `stopChat` and the
partner-status handler: set status `ended` and stamp `ended_at`,
unconditionally on the row's current status; `updated_at` is the trigger. -/
def endSessionRec (now sid : Nat) (s : ChatSession) : ChatSession :=
  if s.id = sid then
    { s with status := SessionStatus.ended, ended_at := some now, updated_at := now }
  else s

/-- End a session by id (an unconditional UPDATE on `chat_sessions`). -/
def endSession (now sid : Nat) (st : Store) : Store :=
  { st with sessions := st.sessions.map (endSessionRec now sid) }

/-- Outcome reported to the caller of `startChat`. -/
inductive StartOutcome
  | connected (sess : ChatSession) (partner : Participant)
  | searching
  | failed
deriving DecidableEq, Repr

/-- The participant row inserted by `startChat`. -/
def newParticipant (now : Nat) (nm : String) (g pg : GenderType) (pid : Nat) :
    Participant :=
  { id := pid, session_id := none, name := strTrim nm, gender := g,
    preferred_gender := pg, is_waiting := true, is_online := true,
    last_seen := now, joined_at := now, left_at := none }

/-- The client operation `startChat`: insert the participant row (waiting,
online, live now), search for a partner, and on success run the pairing; a
pairing failure (injected through `bindFails`) is caught and reported as a
failed start, with no compensation of the inserted participant row. -/
def startChat (now : Nat) (nm : String) (g pg : GenderType) (ct : ChatType)
    (bindFails : Bool) (st : Store) : Store × StartOutcome × Participant :=
  let p := newParticipant now nm g pg st.nextId
  let st1 : Store := { st with participants := st.participants ++ [p], nextId := st.nextId + 1 }
  let found := findOnlineCompatiblePartner now p st1
  match found.2 with
  | some q =>
      let paired := createMatchedSession now ct p q bindFails found.1
      match paired.2 with
      | some sess => (paired.1, StartOutcome.connected sess q, p)
      | none => (paired.1, StartOutcome.failed, p)
  | none => (found.1, StartOutcome.searching, p)

/-- The client operation `sendMessage`: return silently when the trimmed
content is empty (the DB constraint `check_content_not_empty` enforces the
same condition); otherwise insert the trimmed message for the session —
the only store-side requirement is the foreign key that the session row
exists — and refresh the sender's heartbeat. -/
def sendMessage (now : Nat) (sid pid : Nat) (content : String) (st : Store) :
    Store × Option Message :=
  if strTrim content = "" then (st, none)
  else if st.sessions.any (fun s => s.id == sid) then
    let m : Message :=
      { id := st.nextId, session_id := sid, participant_id := pid,
        content := strTrim content, sent_at := now }
    let st1 : Store := { st with messages := st.messages ++ [m], nextId := st.nextId + 1 }
    (update_participant_heartbeat now pid st1, some m)
  else (st, none)

/-- The participant update of `skipChat`, per record: the invoker is unbound,
returned to the waiting pool, and marked live; no other row is touched. -/
def resetToWaiting (now pid : Nat) (p : Participant) : Participant :=
  if p.id = pid then
    { p with session_id := none, is_waiting := true, last_seen := now }
  else p

/-- The two database updates of `skipChat`: end the session, then reset the
invoker's row. -/
def skipUpdates (now sid pid : Nat) (st : Store) : Store :=
  let st1 := endSession now sid st
  { st1 with participants := st1.participants.map (resetToWaiting now pid) }

/-- The client operation `skipChat`: end the session, reset the invoker,
then immediately search again with the invoker's updated row and, when a
partner is found, run the pairing. -/
def skipChat (now sid : Nat) (inv : Participant) (st : Store) :
    Store × Option ChatSession :=
  let st2 := skipUpdates now sid inv.id st
  match st2.participants.find? (fun p => p.id == inv.id) with
  | none => (st2, none)
  | some updated =>
      let found := findOnlineCompatiblePartner now updated st2
      match found.2 with
      | none => (found.1, none)
      | some q => createMatchedSession now ChatType.text updated q false found.1

/-- The participant update of `stopChat`, per record: the invoker is taken
out of the waiting pool, marked offline, and stamped as departed. -/
def stopParticipantRec (now pid : Nat) (p : Participant) : Participant :=
  if p.id = pid then
    { p with is_waiting := false, is_online := false, left_at := some now }
  else p

/-- The client operation `stopChat`: end the current session if there is one,
then update only the invoker's participant row. -/
def stopChat (now : Nat) (sessOpt : Option Nat) (pid : Nat) (st : Store) : Store :=
  let st1 :=
    match sessOpt with
    | some sid => endSession now sid st
    | none => st
  { st1 with participants := st1.participants.map (stopParticipantRec now pid) }

/-- Comparison used by message ordering: the query orders history by
`sent_at` ascending only. -/
def msgLe (a b : Message) : Prop :=
  a.sent_at ≤ b.sent_at

instance : DecidableRel msgLe :=
  fun a b => inferInstanceAs (Decidable (a.sent_at ≤ b.sent_at))

instance : IsTotal Message msgLe :=
  ⟨fun a b => Nat.le_total a.sent_at b.sent_at⟩

instance : IsTrans Message msgLe :=
  ⟨fun _ _ _ h1 h2 => Nat.le_trans h1 h2⟩

/-- The hydration query `loadMessages`: the session's messages ordered by
`sent_at` ascending (ties kept in store order). -/
def loadMessages (sid : Nat) (st : Store) : List Message :=
  List.insertionSort msgLe (st.messages.filter (fun m => m.session_id == sid))

/-- The message INSERT feed handler: drop the event when a message with the
same id is already in the transcript, otherwise append and re-sort by
`sent_at`. -/
def addIncomingMessage (ms : List Message) (m : Message) : List Message :=
  if ms.any (fun x => x.id == m.id) then ms
  else List.insertionSort msgLe (ms ++ [m])

/-- The lexicographic ordering key (sent timestamp, identifier) named by the
specification's message-ordering property. -/
def keyLe (a b : Message) : Prop :=
  a.sent_at < b.sent_at ∨ (a.sent_at = b.sent_at ∧ a.id ≤ b.id)

instance : DecidableRel keyLe :=
  fun a b =>
    inferInstanceAs (Decidable (a.sent_at < b.sent_at ∨ (a.sent_at = b.sent_at ∧ a.id ≤ b.id)))

/-- The partner-status feed handler: when the observed partner row has gone
offline, the client unilaterally ends the current session; otherwise it only
refreshes its local copy of the partner, leaving the store unchanged. -/
def onPartnerStatusChange (now sid : Nat) (updatedPartner : Participant) (st : Store) :
    Store :=
  if updatedPartner.is_online = false then endSession now sid st else st

/-! Concrete fixtures for counterexamples and witnesses. -/

/-- A waiting, online, live participant. -/
def alice : Participant :=
  { id := 0, session_id := none, name := "alice", gender := GenderType.male,
    preferred_gender := GenderType.any, is_waiting := true, is_online := true,
    last_seen := 100, joined_at := 1, left_at := none }

/-- A second waiting participant, joined after `alice`. -/
def bruno : Participant :=
  { alice with id := 1, name := "bruno", joined_at := 2 }

/-- A third waiting participant. -/
def carla : Participant :=
  { alice with id := 2, name := "carla", joined_at := 3 }

/-- A pool of three waiting participants, for the pairing race. -/
def raceStore : Store :=
  { participants := [alice, bruno, carla], sessions := [], messages := [], nextId := 10 }

/-- An online participant whose heartbeat is 100 time units old. -/
def staleOne : Participant :=
  { alice with id := 6, name := "stale", last_seen := 0 }

/-- A pool holding a stale online participant. -/
def c2Store : Store :=
  { participants := [alice, staleOne], sessions := [], messages := [], nextId := 20 }

/-- A fresh two-seeker pool in which a search succeeds. -/
def c2wStore : Store :=
  { participants := [alice, bruno], sessions := [], messages := [], nextId := 20 }

/-- A matched session between `dana` and `egon`. -/
def sessFive : ChatSession :=
  { id := 5, session_type := ChatType.text, status := SessionStatus.matched,
    created_at := 50, ended_at := none, updated_at := 50 }

/-- First participant bound to session 5. -/
def dana : Participant :=
  { alice with id := 0, name := "dana", session_id := some 5, is_waiting := false }

/-- Second participant bound to session 5. -/
def egon : Participant :=
  { alice with
    id := 1, name := "egon", session_id := some 5, is_waiting := false,
    joined_at := 2 }

/-- A store holding one matched session and its two bound participants. -/
def skipStore : Store :=
  { participants := [dana, egon], sessions := [sessFive], messages := [], nextId := 6 }

/-- A session already in ended status. -/
def endedSess : ChatSession :=
  { id := 5, session_type := ChatType.text, status := SessionStatus.ended,
    created_at := 0, ended_at := some 3, updated_at := 3 }

/-- A store whose only session has ended. -/
def c4Store : Store :=
  { participants := [alice], sessions := [endedSess], messages := [], nextId := 30 }

/-- Two messages of session 7 sharing a sent timestamp, the larger id stored
first. -/
def msgLate : Message :=
  { id := 2, session_id := 7, participant_id := 0, content := "x", sent_at := 5 }

/-- The smaller-id message of the tied pair, stored second. -/
def msgEarly : Message :=
  { id := 1, session_id := 7, participant_id := 1, content := "y", sent_at := 5 }

/-- A store holding the two tied messages. -/
def c6Store : Store :=
  { participants := [], sessions := [], messages := [msgLate, msgEarly], nextId := 3 }

/-- An ended session with a recorded ended timestamp. -/
def c7Sess : ChatSession :=
  { id := 8, session_type := ChatType.text, status := SessionStatus.ended,
    created_at := 0, ended_at := some 3, updated_at := 3 }

/-- A store holding only the already-ended session. -/
def c7Store : Store :=
  { participants := [], sessions := [c7Sess], messages := [], nextId := 30 }

/-- A matched session referenced by no participant row. -/
def orphanSess : ChatSession :=
  { id := 0, session_type := ChatType.text, status := SessionStatus.matched,
    created_at := 0, ended_at := none, updated_at := 0 }

/-- A store with the orphan matched session and an empty pool. -/
def orphanStore : Store :=
  { participants := [], sessions := [orphanSess], messages := [], nextId := 1 }

/-- A stale online participant bound to session 0. -/
def c8p : Participant :=
  { alice with session_id := some 0, is_waiting := false, last_seen := 0 }

/-- A store where the reaper has work on both steps. -/
def c8Store : Store :=
  { participants := [c8p], sessions := [orphanSess], messages := [], nextId := 1 }

/-- A pool holding one live waiting candidate, for a failing start. -/
def c9Store : Store :=
  { participants := [bruno], sessions := [], messages := [], nextId := 40 }

/-- A partner row observed to have gone offline. -/
def pOff : Participant :=
  { alice with id := 3, name := "off", is_online := false }

/-- A matched session for the partner-status handler. -/
def c10Sess : ChatSession :=
  { id := 9, session_type := ChatType.text, status := SessionStatus.matched,
    created_at := 0, ended_at := none, updated_at := 0 }

/-- A store with the matched session watched by the handler. -/
def c10Store : Store :=
  { participants := [alice, pOff], sessions := [c10Sess], messages := [], nextId := 11 }

/-! Theorems. -/

/-- Reaping a participant twice in the same sweep instant is the same as
reaping once. -/
theorem reapParticipant_idem (now : Nat) (p : Participant) :
    reapParticipant now (reapParticipant now p) = reapParticipant now p := by
  unfold reapParticipant
  split_ifs with h1 h2 <;> simp_all

/-- Reaping a session twice against the same participant rows is the same as
reaping once. -/
theorem reapSession_idem (now : Nat) (ps : List Participant) (s : ChatSession) :
    reapSession now ps (reapSession now ps s) = reapSession now ps s := by
  unfold reapSession
  split_ifs with h1 h2 <;> simp_all

/-- The cleanup sweep is idempotent: a second run at the same instant
changes nothing further. -/
theorem cleanup_idem (now : Nat) (st : Store) :
    cleanup_offline_participants now (cleanup_offline_participants now st) =
      cleanup_offline_participants now st := by
  have hcompP : reapParticipant now ∘ reapParticipant now = reapParticipant now :=
    funext fun p => reapParticipant_idem now p
  have hps : ∀ l : List Participant,
      (l.map (reapParticipant now)).map (reapParticipant now) =
        l.map (reapParticipant now) := by
    intro l
    rw [List.map_map, hcompP]
  cases st with
  | mk parts sess msgs nid =>
    unfold cleanup_offline_participants
    simp only [hps parts]
    have hcompS : reapSession now (parts.map (reapParticipant now)) ∘
        reapSession now (parts.map (reapParticipant now)) =
          reapSession now (parts.map (reapParticipant now)) :=
      funext fun s => reapSession_idem now _ s
    simp only [List.map_map, hcompS]

/-- Claim C1, counterexample: the bind of `createMatchedSession` is not
guarded by the participants' seeking flags.  Pairing alice with bruno
succeeds and clears bruno's seeking flag; a second pairing of carla with the
already-claimed bruno nevertheless succeeds as well, so two pairings
contending for an overlapping participant set yield two successes, not
exactly one. -/
theorem c1_counterexample :
    (createMatchedSession 100 ChatType.text alice bruno false raceStore).2.isSome = true ∧
    (∃ p ∈ (createMatchedSession 100 ChatType.text alice bruno false raceStore).1.participants,
      p.id = bruno.id ∧ p.is_waiting = false ∧ p.session_id = some 10) ∧
    (createMatchedSession 100 ChatType.text carla bruno false
        (createMatchedSession 100 ChatType.text alice bruno false raceStore).1).2.isSome = true ∧
    (∃ p ∈ (createMatchedSession 100 ChatType.text carla bruno false
        (createMatchedSession 100 ChatType.text alice bruno false raceStore).1).1.participants,
      p.id = bruno.id ∧ p.session_id = some 11) := by
  decide

/-- Claim C2, counterexample: `findOnlineCompatiblePartner` is not free of
mutation — it first invokes the offline-cleanup sweep, which here flips a
stale online participant to offline and not waiting, so the store after the
search differs from the store before it. -/
theorem c2_counterexample :
    (findOnlineCompatiblePartner 100 alice c2Store).1 ≠ c2Store ∧
    staleOne.is_online = true ∧ staleOne ∈ c2Store.participants ∧
    (∃ p ∈ (findOnlineCompatiblePartner 100 alice c2Store).1.participants,
      p.id = staleOne.id ∧ p.is_online = false ∧ p.is_waiting = false) := by
  decide

/-- Claim C3, counterexample: after dana skips the matched session 5, the
session is ended and dana is back to seeking, but the other bound
participant egon is not released — egon's row still has seeking false and is
still bound to the ended session. -/
theorem c3_counterexample :
    (∃ s ∈ (skipChat 100 5 dana skipStore).1.sessions,
      s.id = 5 ∧ s.status = SessionStatus.ended) ∧
    (∃ p ∈ (skipChat 100 5 dana skipStore).1.participants,
      p.id = dana.id ∧ p.is_waiting = true ∧ p.session_id = none) ∧
    (∃ p ∈ (skipChat 100 5 dana skipStore).1.participants,
      p.id = egon.id ∧ p.is_waiting = false ∧ p.session_id = some 5) := by
  decide

/-- Claim C4, counterexample: `sendMessage` performs no session-status
check — sending nonempty content to a session whose status is ended
succeeds and stores the message, instead of failing with InvalidSession. -/
theorem c4_counterexample :
    endedSess ∈ c4Store.sessions ∧ endedSess.status = SessionStatus.ended ∧
    (sendMessage 100 5 0 "hi" c4Store).2.isSome = true ∧
    (∃ m ∈ (sendMessage 100 5 0 "hi" c4Store).1.messages,
      m.session_id = 5 ∧ m.content = "hi") := by
  decide

/-- Claim C6, counterexample: the history query orders by sent timestamp
only; two messages with equal timestamps come back in store order with
identifiers 2 then 1, so the returned sequence is not non-decreasing by the
key (sent timestamp, identifier). -/
theorem c6_counterexample :
    (loadMessages 7 c6Store).map Message.id = [2, 1] ∧
    ¬ List.Sorted keyLe (loadMessages 7 c6Store) := by
  decide

/-- Claim C7, counterexample: ending an already-ended session is not a
stored-state no-op — the end update is unconditional on the current status,
so repeating it overwrites the recorded ended timestamp. -/
theorem c7_counterexample :
    c7Sess.status = SessionStatus.ended ∧ c7Sess.ended_at = some 3 ∧
    (endSession 9 8 c7Store).sessions =
      [{ c7Sess with ended_at := some 9, updated_at := 9 }] ∧
    endSession 9 8 c7Store ≠ c7Store := by
  decide

/-- Claim C8, counterexample: the reaper's session sweep groups by the
participants' session references, so a matched session bound by no
participant at all — for which the claim's universal condition holds
vacuously — is left matched instead of being ended. -/
theorem c8_counterexample :
    orphanSess.status = SessionStatus.matched ∧
    boundTo orphanStore.participants orphanSess.id = [] ∧
    (cleanup_offline_participants 100 orphanStore).sessions = [orphanSess] := by
  decide

/-- Claim C4, amended: `sendMessage` silently rejects content that is empty
after trimming; for nonempty trimmed content it inserts the trimmed message
whenever the session row exists — irrespective of the session's status and of
the content's length — and only a missing session row makes it fail. -/
theorem c4_amended (now sid pid : Nat) (content : String) (st : Store) :
    (strTrim content = "" → sendMessage now sid pid content st = (st, none)) ∧
    (strTrim content ≠ "" → (∃ s ∈ st.sessions, s.id = sid) →
      (sendMessage now sid pid content st).2 =
        some { id := st.nextId, session_id := sid, participant_id := pid,
               content := strTrim content, sent_at := now } ∧
      ({ id := st.nextId, session_id := sid, participant_id := pid,
         content := strTrim content, sent_at := now } : Message) ∈
        (sendMessage now sid pid content st).1.messages) ∧
    (strTrim content ≠ "" → (∀ s ∈ st.sessions, s.id ≠ sid) →
      sendMessage now sid pid content st = (st, none)) := by
  refine ⟨?_, ?_, ?_⟩
  · intro h
    simp [sendMessage, h]
  · intro h hex
    have hany : st.sessions.any (fun s => s.id == sid) = true := by
      rw [List.any_eq_true]
      obtain ⟨s, hs, hid⟩ := hex
      exact ⟨s, hs, by simp [hid]⟩
    refine ⟨by simp [sendMessage, h, hany], ?_⟩
    simp [sendMessage, h, hany, update_participant_heartbeat]
  · intro h hnone
    have hany : st.sessions.any (fun s => s.id == sid) = false := by
      rw [Bool.eq_false_iff]
      intro hc
      rw [List.any_eq_true] at hc
      obtain ⟨s, hs, hid⟩ := hc
      exact hnone s hs (by simpa using hid)
    simp [sendMessage, h, hany]

/-- Claim C4, witness: with the ended-session store, nonempty content is
accepted and the stored message carries the trimmed content. -/
theorem c4_amended_witness :
    (strTrim "hi" ≠ "" ∧ (∃ s ∈ c4Store.sessions, s.id = 5)) ∧
    (sendMessage 100 5 0 "hi" c4Store).2 =
      some { id := 30, session_id := 5, participant_id := 0,
             content := strTrim "hi", sent_at := 100 } :=
  ⟨⟨by decide, by decide⟩, ((c4_amended 100 5 0 "hi" c4Store).2.1 (by decide) (by decide)).1⟩

/-- Claim C5, confirmed: when a bound participant invokes stop, the session
transitions to ended, the invoker's row is set to seeking false and online
false with a departure stamp, and the other bound participant's row is left
untouched — its seeking flag stays false and its online flag is unchanged;
with no current session, no session row is touched. -/
theorem c5_stop (now sid pid : Nat) (q : Participant) (st : Store)
    (hq : q ∈ st.participants) (hqid : q.id ≠ pid) (hqwait : q.is_waiting = false) :
    (∀ s ∈ st.sessions, s.id = sid →
      { s with status := SessionStatus.ended, ended_at := some now, updated_at := now } ∈
        (stopChat now (some sid) pid st).sessions) ∧
    (∀ p ∈ st.participants, p.id = pid →
      { p with is_waiting := false, is_online := false, left_at := some now } ∈
        (stopChat now (some sid) pid st).participants) ∧
    q ∈ (stopChat now (some sid) pid st).participants ∧ q.is_waiting = false ∧
    (stopChat now none pid st).sessions = st.sessions := by
  refine ⟨?_, ?_, ?_, hqwait, rfl⟩
  · intro s hs hsid
    have he : endSessionRec now sid s =
        { s with status := SessionStatus.ended, ended_at := some now, updated_at := now } := by
      simp [endSessionRec, hsid]
    show _ ∈ st.sessions.map (endSessionRec now sid)
    exact he ▸ List.mem_map_of_mem _ hs
  · intro p hp hpid
    have he : stopParticipantRec now pid p =
        { p with is_waiting := false, is_online := false, left_at := some now } := by
      simp [stopParticipantRec, hpid]
    show _ ∈ st.participants.map (stopParticipantRec now pid)
    exact he ▸ List.mem_map_of_mem _ hp
  · have he : stopParticipantRec now pid q = q := by
      simp [stopParticipantRec, hqid]
    show _ ∈ st.participants.map (stopParticipantRec now pid)
    exact he ▸ List.mem_map_of_mem _ hq

/-- Claim C5, witness: dana stops the matched session 5; egon's row survives
unchanged while the session is ended. -/
theorem c5_stop_witness :
    (egon ∈ skipStore.participants ∧ egon.id ≠ 0 ∧ egon.is_waiting = false) ∧
    egon ∈ (stopChat 7 (some 5) 0 skipStore).participants :=
  ⟨⟨by decide, by decide, by decide⟩,
    (c5_stop 7 5 0 egon skipStore (by decide) (by decide) (by decide)).2.2.1⟩

/-- Claim C7, amended: ended is terminal for the status field — the end
update and the reaper sweep never move a session out of ended, pairing never
modifies an existing session row, and message sending touches no session —
and re-ending an already-ended session succeeds rather than erroring, but
overwrites the stored ended timestamp with the new time. -/
theorem c7_amended (now sid : Nat) (ct : ChatType) (p1 p2 : Participant) (b : Bool)
    (c : String) (pid : Nat) (st : Store) (ps : List Participant) :
    (∀ t : ChatSession, t.status = SessionStatus.ended →
      (endSessionRec now sid t).status = SessionStatus.ended ∧
      (reapSession now ps t).status = SessionStatus.ended) ∧
    (∀ t : ChatSession, t.id = sid →
      endSessionRec now sid t =
        { t with status := SessionStatus.ended, ended_at := some now, updated_at := now }) ∧
    (∀ s ∈ (createMatchedSession now ct p1 p2 b st).1.sessions,
      s.id ≠ st.nextId → s ∈ st.sessions) ∧
    (sendMessage now sid pid c st).1.sessions = st.sessions := by
  refine ⟨?_, ?_, ?_, ?_⟩
  · intro t ht
    constructor
    · unfold endSessionRec
      split_ifs <;> simp [ht]
    · unfold reapSession
      split_ifs <;> simp [ht]
  · intro t ht
    simp [endSessionRec, ht]
  · intro s hs hne
    cases b with
    | true =>
        simp only [createMatchedSession, if_pos, List.mem_filter, List.mem_append,
          List.mem_singleton] at hs
        rcases hs.1 with h | h
        · exact h
        · exact absurd (congrArg ChatSession.id h) hne
    | false =>
        simp [createMatchedSession] at hs
        rcases hs with h | h
        · exact h
        · exact absurd (congrArg ChatSession.id h) hne
  · unfold sendMessage update_participant_heartbeat
    split_ifs <;> rfl

/-- Claim C7, witness: re-ending the already-ended session succeeds and
keeps the status ended. -/
theorem c7_amended_witness :
    c7Sess.status = SessionStatus.ended ∧
    (endSessionRec 9 8 c7Sess).status = SessionStatus.ended :=
  ⟨rfl, ((c7_amended 9 8 ChatType.text alice bruno false "x" 0 c7Store []).1 c7Sess rfl).1⟩

/-- Claim C8, amended: each sweep sets online and seeking to false for every
online participant whose liveness is older than the 30-unit threshold,
leaves every other participant row unchanged, transitions to ended every
matched session that has at least one bound participant and all of whose
bound participants are offline after the first step, leaves every other
session row and all messages unchanged, and is idempotent. -/
theorem c8_amended (now : Nat) (st : Store) :
    (∀ p ∈ st.participants, p.is_online = true → p.last_seen + 30 < now →
      { p with is_online := false, is_waiting := false } ∈
        (cleanup_offline_participants now st).participants) ∧
    (∀ p ∈ st.participants, ¬(p.last_seen + 30 < now ∧ p.is_online = true) →
      p ∈ (cleanup_offline_participants now st).participants) ∧
    (∀ s ∈ st.sessions, s.status = SessionStatus.matched →
      boundTo (cleanup_offline_participants now st).participants s.id ≠ [] →
      (∀ q ∈ boundTo (cleanup_offline_participants now st).participants s.id,
        q.is_online = false) →
      { s with status := SessionStatus.ended, ended_at := some now, updated_at := now } ∈
        (cleanup_offline_participants now st).sessions) ∧
    (∀ s ∈ st.sessions,
      ¬(s.status = SessionStatus.matched ∧
        boundTo (cleanup_offline_participants now st).participants s.id ≠ [] ∧
        (∀ q ∈ boundTo (cleanup_offline_participants now st).participants s.id,
          q.is_online = false)) →
      s ∈ (cleanup_offline_participants now st).sessions) ∧
    (cleanup_offline_participants now st).messages = st.messages ∧
    cleanup_offline_participants now (cleanup_offline_participants now st) =
      cleanup_offline_participants now st := by
  refine ⟨?_, ?_, ?_, ?_, rfl, cleanup_idem now st⟩
  · intro p hp hon hstale
    have he : reapParticipant now p = { p with is_online := false, is_waiting := false } := by
      simp [reapParticipant, hon, hstale]
    show _ ∈ st.participants.map (reapParticipant now)
    exact he ▸ List.mem_map_of_mem _ hp
  · intro p hp hno
    have he : reapParticipant now p = p := by
      simp only [reapParticipant, if_neg hno]
    show _ ∈ st.participants.map (reapParticipant now)
    exact he ▸ List.mem_map_of_mem _ hp
  · intro s hs hm hne hall
    have he : reapSession now (st.participants.map (reapParticipant now)) s =
        { s with status := SessionStatus.ended, ended_at := some now, updated_at := now } := by
      unfold reapSession
      split_ifs with hcond
      · rfl
      · exact absurd ⟨hm, hne, hall⟩ hcond
    show _ ∈ st.sessions.map (reapSession now (st.participants.map (reapParticipant now)))
    exact he ▸ List.mem_map_of_mem _ hs
  · intro s hs hno
    have he : reapSession now (st.participants.map (reapParticipant now)) s = s := by
      unfold reapSession
      split_ifs with hcond
      · exact absurd hcond hno
      · rfl
    show _ ∈ st.sessions.map (reapSession now (st.participants.map (reapParticipant now)))
    exact he ▸ List.mem_map_of_mem _ hs

/-- Claim C8, witness: the sweep reaps the stale bound participant of the
concrete store. -/
theorem c8_amended_witness :
    (c8p ∈ c8Store.participants ∧ c8p.is_online = true ∧ c8p.last_seen + 30 < 100) ∧
    { c8p with is_online := false, is_waiting := false } ∈
      (cleanup_offline_participants 100 c8Store).participants :=
  ⟨⟨by decide, rfl, by decide⟩, (c8_amended 100 c8Store).1 c8p (by decide) rfl (by decide)⟩

/-- Claim C10, confirmed: when the partner-status handler observes the
partner's online flag false, it unilaterally ends the watched session — the
store change is exactly the session-end update, with participants and
messages untouched, so a session can end without skip, stop, or a reaper
run. -/
theorem c10_partner_offline (now sid : Nat) (up : Participant) (st : Store)
    (h : up.is_online = false) :
    onPartnerStatusChange now sid up st = endSession now sid st ∧
    (∀ s ∈ st.sessions, s.id = sid →
      { s with status := SessionStatus.ended, ended_at := some now, updated_at := now } ∈
        (onPartnerStatusChange now sid up st).sessions) ∧
    (onPartnerStatusChange now sid up st).participants = st.participants ∧
    (onPartnerStatusChange now sid up st).messages = st.messages := by
  have he : onPartnerStatusChange now sid up st = endSession now sid st := by
    simp [onPartnerStatusChange, h]
  refine ⟨he, ?_, ?_, ?_⟩
  · intro s hs hsid
    rw [he]
    have hrec : endSessionRec now sid s =
        { s with status := SessionStatus.ended, ended_at := some now, updated_at := now } := by
      simp [endSessionRec, hsid]
    show _ ∈ st.sessions.map (endSessionRec now sid)
    exact hrec ▸ List.mem_map_of_mem _ hs
  · rw [he]; rfl
  · rw [he]; rfl

/-- Claim C10, witness: observing the offline partner ends the concrete
matched session. -/
theorem c10_partner_offline_witness :
    pOff.is_online = false ∧
    { c10Sess with status := SessionStatus.ended, ended_at := some 50, updated_at := 50 } ∈
      (onPartnerStatusChange 50 9 pOff c10Store).sessions :=
  ⟨rfl, (c10_partner_offline 50 9 pOff c10Store rfl).2.1 c10Sess (by decide) rfl⟩

/-- Claim C1, amended: the pairing creates one session in matched status and
binds the two named participants unconditionally — setting their session
reference, clearing seeking, refreshing liveness — regardless of their
current seeking flags (there is no seeking-guarded conditional update, so
racing pairings over an overlapping participant set can both succeed with
the later one overwriting the bind); rows of other participants are
untouched; and only when the participant update itself returns a store error
does the operation roll back by deleting the just-created session, leaving
the store's collections as they were. -/
theorem c1_amended (now : Nat) (ct : ChatType) (p1 p2 : Participant) (st : Store)
    (hfresh : ∀ s ∈ st.sessions, s.id ≠ st.nextId) :
    ((createMatchedSession now ct p1 p2 false st).2 =
      some { id := st.nextId, session_type := ct, status := SessionStatus.matched,
             created_at := now, ended_at := none, updated_at := now }) ∧
    (∀ p ∈ st.participants, p.id = p1.id ∨ p.id = p2.id →
      { p with session_id := some st.nextId, is_waiting := false, last_seen := now } ∈
        (createMatchedSession now ct p1 p2 false st).1.participants) ∧
    (∀ p ∈ st.participants, p.id ≠ p1.id → p.id ≠ p2.id →
      p ∈ (createMatchedSession now ct p1 p2 false st).1.participants) ∧
    ((createMatchedSession now ct p1 p2 true st).2 = none ∧
      (createMatchedSession now ct p1 p2 true st).1.participants = st.participants ∧
      (createMatchedSession now ct p1 p2 true st).1.sessions = st.sessions ∧
      (createMatchedSession now ct p1 p2 true st).1.messages = st.messages) := by
  refine ⟨rfl, ?_, ?_, rfl, rfl, ?_, rfl⟩
  · intro p hp hid
    have hin : p.id ∈ [p1.id, p2.id] := by simpa using hid
    have he : bindParticipant now st.nextId [p1.id, p2.id] p =
        { p with session_id := some st.nextId, is_waiting := false, last_seen := now } := by
      simp [bindParticipant, hin]
    show _ ∈ st.participants.map (bindParticipant now st.nextId [p1.id, p2.id])
    exact he ▸ List.mem_map_of_mem _ hp
  · intro p hp h1 h2
    have hnin : p.id ∉ [p1.id, p2.id] := by simp [h1, h2]
    have he : bindParticipant now st.nextId [p1.id, p2.id] p = p := by
      simp [bindParticipant, hnin]
    show _ ∈ st.participants.map (bindParticipant now st.nextId [p1.id, p2.id])
    exact he ▸ List.mem_map_of_mem _ hp
  · show List.filter (fun s => s.id != st.nextId)
        (st.sessions ++ [ChatSession.mk st.nextId ct SessionStatus.matched now none now]) =
      st.sessions
    rw [List.filter_append]
    have h1 : st.sessions.filter (fun s => s.id != st.nextId) = st.sessions :=
      List.filter_eq_self.mpr fun s hs => by simpa [bne_iff_ne] using hfresh s hs
    have h2 : List.filter (fun s => s.id != st.nextId)
        [ChatSession.mk st.nextId ct SessionStatus.matched now none now] = [] := by
      simp
    rw [h1, h2, List.append_nil]

/-- Claim C1, witness: pairing alice with bruno in the three-seeker pool
produces the bound version of bruno's row. -/
theorem c1_amended_witness :
    (∀ s ∈ raceStore.sessions, s.id ≠ raceStore.nextId) ∧
    { bruno with session_id := some 10, is_waiting := false, last_seen := 100 } ∈
      (createMatchedSession 100 ChatType.text alice bruno false raceStore).1.participants :=
  ⟨by decide,
    (c1_amended 100 ChatType.text alice bruno raceStore (by decide)).2.1 bruno (by decide)
      (Or.inr rfl)⟩

/-- Every member of the survivor window is drawn from the scanned pool,
passes the candidate row filter, and is mutually compatible with the
seeker. -/
theorem mem_of_mem_survivorWindow {now : Nat} {seeker : Participant}
    {ps : List Participant} {p : Participant} (hp : p ∈ survivorWindow now seeker ps) :
    p ∈ ps ∧ eligibleCandidate now seeker p = true ∧ mutuallyCompatible p seeker = true := by
  unfold survivorWindow at hp
  have h1 := List.mem_filter.mp hp
  have h2 : p ∈ List.insertionSort joinedLe (ps.filter (eligibleCandidate now seeker)) :=
    (List.take_sublist 20 _).subset h1.1
  rw [List.mem_insertionSort] at h2
  have h3 := List.mem_filter.mp h2
  exact ⟨h3.1, h3.2, h1.2⟩

/-- The survivor window is sorted by joined timestamp. -/
theorem survivorWindow_sorted (now : Nat) (seeker : Participant) (ps : List Participant) :
    List.Sorted joinedLe (survivorWindow now seeker ps) := by
  unfold survivorWindow
  have hsub : List.Sublist
      (((List.insertionSort joinedLe (ps.filter (eligibleCandidate now seeker))).take 20).filter
        (fun partner => mutuallyCompatible partner seeker))
      (List.insertionSort joinedLe (ps.filter (eligibleCandidate now seeker))) :=
    (List.filter_sublist _).trans (List.take_sublist _ _)
  exact List.Pairwise.sublist hsub (List.sorted_insertionSort joinedLe _)

/-- Claim C2, amended: the search is not mutation-free — it first runs the
offline-cleanup sweep, and its store result is exactly that sweep's output,
the candidate query itself writing nothing.  A returned partner is a
post-sweep row distinct from the seeker that is seeking, online, live within
the 30-unit threshold and mutually gender-compatible, and it is
earliest-joined among the surviving candidates of the 20-row window, with
joined-timestamp ties broken by store order rather than by identifier. -/
theorem c2_amended (now : Nat) (seeker p : Participant) (st : Store)
    (h : (findOnlineCompatiblePartner now seeker st).2 = some p) :
    (findOnlineCompatiblePartner now seeker st).1 = cleanup_offline_participants now st ∧
    p ∈ (cleanup_offline_participants now st).participants ∧
    p.is_waiting = true ∧ p.is_online = true ∧ p.id ≠ seeker.id ∧
    now ≤ p.last_seen + 30 ∧
    mutuallyCompatible p seeker = true ∧
    (∀ q ∈ survivorWindow now seeker (cleanup_offline_participants now st).participants,
      p.joined_at ≤ q.joined_at) := by
  have hh : (survivorWindow now seeker
      (cleanup_offline_participants now st).participants).head? = some p := h
  cases hw : survivorWindow now seeker (cleanup_offline_participants now st).participants with
  | nil =>
      rw [hw] at hh
      simp at hh
  | cons q rest =>
      rw [hw] at hh
      simp only [List.head?_cons, Option.some.injEq] at hh
      subst hh
      have hmem : q ∈ survivorWindow now seeker
          (cleanup_offline_participants now st).participants := by
        rw [hw]
        exact List.mem_cons_self q rest
      obtain ⟨hin, helig, hcompat⟩ := mem_of_mem_survivorWindow hmem
      simp only [eligibleCandidate, Bool.and_eq_true, bne_iff_ne, decide_eq_true_eq] at helig
      have hsorted := survivorWindow_sorted now seeker
        (cleanup_offline_participants now st).participants
      rw [hw] at hsorted
      refine ⟨rfl, hin, helig.1.1.1, helig.1.1.2, helig.1.2, helig.2, hcompat, ?_⟩
      intro x hx
      rcases List.mem_cons.mp hx with hx1 | hx2
      · subst hx1
        exact Nat.le_refl _
      · exact List.rel_of_sorted_cons hsorted x hx2

/-- Claim C2, witness: with two fresh seekers, the search returns bruno and
the compatibility clause evaluates. -/
theorem c2_amended_witness :
    (findOnlineCompatiblePartner 100 alice c2wStore).2 = some bruno ∧
    mutuallyCompatible bruno alice = true :=
  ⟨by decide, (c2_amended 100 alice bruno c2wStore (by decide)).2.2.2.2.2.2.1⟩

/-- Claim C9, confirmed: when `startChat` fails after inserting the
participant row (the pairing bind errors and the thrown failure is caught),
the inserted row is not compensated — it stays in the pool with seeking and
online both true, and it passes the candidate row filter of any later search
by another participant, even though the caller was told the start failed. -/
theorem c9_confirmed (now : Nat) (nm : String) (g pg : GenderType) (ct : ChatType)
    (st : Store)
    (h : (startChat now nm g pg ct true st).2.1 = StartOutcome.failed) :
    newParticipant now nm g pg st.nextId ∈ (startChat now nm g pg ct true st).1.participants ∧
    (newParticipant now nm g pg st.nextId).is_waiting = true ∧
    (newParticipant now nm g pg st.nextId).is_online = true ∧
    (∀ seeker : Participant, seeker.id ≠ st.nextId →
      eligibleCandidate now seeker (newParticipant now nm g pg st.nextId) = true) := by
  refine ⟨?_, rfl, rfl, ?_⟩
  · simp only [startChat] at h ⊢
    cases hfo : (findOnlineCompatiblePartner now (newParticipant now nm g pg st.nextId)
        { st with participants := st.participants ++ [newParticipant now nm g pg st.nextId],
                  nextId := st.nextId + 1 }).2 with
    | none =>
        exfalso
        rw [hfo] at h
        simp at h
    | some q =>
        have hnr : reapParticipant now (newParticipant now nm g pg st.nextId) =
            newParticipant now nm g pg st.nextId := by
          unfold reapParticipant
          rw [if_neg]
          intro hcon
          have hlt := hcon.1
          simp only [newParticipant] at hlt
          omega
        have hmem1 : newParticipant now nm g pg st.nextId ∈
            (st.participants ++ [newParticipant now nm g pg st.nextId]) := by
          simp
        have hmem2 := List.mem_map_of_mem (reapParticipant now) hmem1
        rw [hnr] at hmem2
        exact hmem2
  · intro seeker hne
    simp [eligibleCandidate, newParticipant, bne_iff_ne]
    exact Ne.symm hne

/-- Claim C9, witness: the failing start against the one-candidate pool
reports failure while leaving the inserted row in the pool. -/
theorem c9_confirmed_witness :
    (startChat 100 "zoe" GenderType.male GenderType.any ChatType.text true c9Store).2.1 =
      StartOutcome.failed ∧
    newParticipant 100 "zoe" GenderType.male GenderType.any 40 ∈
      (startChat 100 "zoe" GenderType.male GenderType.any ChatType.text true c9Store).1.participants :=
  ⟨by decide,
    (c9_confirmed 100 "zoe" GenderType.male GenderType.any ChatType.text c9Store (by decide)).1⟩

/-- The session sweep never touches a session that is already ended. -/
theorem reapSession_of_ended (now : Nat) (ps : List Participant) (t : ChatSession)
    (ht : t.status = SessionStatus.ended) : reapSession now ps t = t := by
  unfold reapSession
  rw [if_neg]
  intro hcon
  rw [ht] at hcon
  exact absurd hcon.1 (by decide)

/-- Claim C6, amended: the history query returns the session's messages
sorted non-decreasing by sent timestamp only — equal-timestamp messages stay
in store order, so the sequence need not be non-decreasing by the pair
(sent timestamp, identifier) — and the feed consumer drops any delivery
whose message identifier is already present, so repeated delivery never
duplicates a transcript entry. -/
theorem c6_amended (sid : Nat) (st : Store) (ms : List Message) (m : Message) :
    List.Sorted msgLe (loadMessages sid st) ∧
    (∀ x ∈ loadMessages sid st, x.session_id = sid) ∧
    (∀ x ∈ st.messages, x.session_id = sid → x ∈ loadMessages sid st) ∧
    ((∃ x ∈ ms, x.id = m.id) → addIncomingMessage ms m = ms) ∧
    ((ms.map Message.id).Nodup → ((addIncomingMessage ms m).map Message.id).Nodup) := by
  refine ⟨List.sorted_insertionSort msgLe _, ?_, ?_, ?_, ?_⟩
  · intro x hx
    unfold loadMessages at hx
    rw [List.mem_insertionSort, List.mem_filter] at hx
    simpa using hx.2
  · intro x hx hsid
    unfold loadMessages
    rw [List.mem_insertionSort, List.mem_filter]
    exact ⟨hx, by simp [hsid]⟩
  · intro hex
    have hany : ms.any (fun x => x.id == m.id) = true := by
      rw [List.any_eq_true]
      obtain ⟨x, hx, hid⟩ := hex
      exact ⟨x, hx, by simp [hid]⟩
    simp [addIncomingMessage, hany]
  · intro hnd
    by_cases hany : ms.any (fun x => x.id == m.id) = true
    · simpa [addIncomingMessage, hany] using hnd
    · have hnot : ∀ x ∈ ms, x.id ≠ m.id := by
        intro x hx hc
        exact hany (List.any_eq_true.mpr ⟨x, hx, by simp [hc]⟩)
      have hres : addIncomingMessage ms m = List.insertionSort msgLe (ms ++ [m]) := by
        simp [addIncomingMessage, hany]
      have hpm : List.Perm ((List.insertionSort msgLe (ms ++ [m])).map Message.id)
          ((ms ++ [m]).map Message.id) :=
        (List.perm_insertionSort msgLe (ms ++ [m])).map Message.id
      have hnd2 : ((ms ++ [m]).map Message.id).Nodup := by
        simp only [List.map_append, List.map_cons, List.map_nil]
        rw [List.nodup_append]
        refine ⟨hnd, List.nodup_singleton _, ?_⟩
        intro a ha hb
        rw [List.mem_map] at ha
        obtain ⟨x, hx, hxa⟩ := ha
        rw [List.mem_singleton] at hb
        exact hnot x hx (by rw [hxa, hb])
      rw [hres]
      exact hpm.nodup_iff.mpr hnd2

/-- Claim C6, witness: a duplicate delivery of an already-present message
identifier leaves the transcript unchanged. -/
theorem c6_amended_witness :
    (∃ x ∈ [msgEarly], x.id = msgEarly.id) ∧
    addIncomingMessage [msgEarly] msgEarly = [msgEarly] :=
  ⟨by decide, (c6_amended 7 c6Store [msgEarly] msgEarly).2.2.2.1 (by decide)⟩

/-- Claim C3, amended: skip ends the session, resets only the invoker's row
— seeking back to true, session binding cleared, liveness refreshed — and
immediately re-runs the partner search for the invoker (which may rebind the
invoker at once); the other bound participant's row is not modified by the
skip — it keeps seeking false and stays bound to the now-ended session until
its own client reacts.  Stated here on a skip whose immediate re-search
finds no partner, for any co-participant row that the embedded cleanup does
not reap. -/
theorem c3_amended (now sid : Nat) (inv : Participant) (st : Store) (q : Participant)
    (hq : q ∈ st.participants) (hqid : q.id ≠ inv.id)
    (hqfresh : ¬(q.last_seen + 30 < now ∧ q.is_online = true))
    (hnone : (skipChat now sid inv st).2 = none) :
    (∀ s ∈ st.sessions, s.id = sid →
      { s with status := SessionStatus.ended, ended_at := some now, updated_at := now } ∈
        (skipChat now sid inv st).1.sessions) ∧
    q ∈ (skipChat now sid inv st).1.participants ∧
    (∀ p ∈ st.participants, p.id = inv.id →
      { p with session_id := none, is_waiting := true, last_seen := now } ∈
        (skipChat now sid inv st).1.participants) := by
  have hqreset : resetToWaiting now inv.id q = q := by
    simp [resetToWaiting, hqid]
  have hq2 : q ∈ (skipUpdates now sid inv.id st).participants := by
    have hmm := List.mem_map_of_mem (resetToWaiting now inv.id) hq
    rw [hqreset] at hmm
    exact hmm
  have hqreap : reapParticipant now q = q := by
    unfold reapParticipant
    rw [if_neg hqfresh]
  have hq3 : q ∈ (cleanup_offline_participants now (skipUpdates now sid inv.id st)).participants := by
    have hmm := List.mem_map_of_mem (reapParticipant now) hq2
    rw [hqreap] at hmm
    exact hmm
  have hsess2 : ∀ s ∈ st.sessions, s.id = sid →
      ({ s with status := SessionStatus.ended, ended_at := some now, updated_at := now } :
        ChatSession) ∈ (skipUpdates now sid inv.id st).sessions := by
    intro s hs hid
    have he : endSessionRec now sid s =
        { s with status := SessionStatus.ended, ended_at := some now, updated_at := now } := by
      simp [endSessionRec, hid]
    have hmm := List.mem_map_of_mem (endSessionRec now sid) hs
    rw [he] at hmm
    exact hmm
  have hsess3 : ∀ s ∈ st.sessions, s.id = sid →
      ({ s with status := SessionStatus.ended, ended_at := some now, updated_at := now } :
        ChatSession) ∈
        (cleanup_offline_participants now (skipUpdates now sid inv.id st)).sessions := by
    intro s hs hid
    have hmm := List.mem_map_of_mem
      (reapSession now ((skipUpdates now sid inv.id st).participants.map (reapParticipant now)))
      (hsess2 s hs hid)
    rw [reapSession_of_ended _ _ _ rfl] at hmm
    exact hmm
  have hinv2 : ∀ p ∈ st.participants, p.id = inv.id →
      ({ p with session_id := none, is_waiting := true, last_seen := now } : Participant) ∈
        (skipUpdates now sid inv.id st).participants := by
    intro p hp hid
    have he : resetToWaiting now inv.id p =
        { p with session_id := none, is_waiting := true, last_seen := now } := by
      simp [resetToWaiting, hid]
    have hmm := List.mem_map_of_mem (resetToWaiting now inv.id) hp
    rw [he] at hmm
    exact hmm
  have hinv3 : ∀ p ∈ st.participants, p.id = inv.id →
      ({ p with session_id := none, is_waiting := true, last_seen := now } : Participant) ∈
        (cleanup_offline_participants now (skipUpdates now sid inv.id st)).participants := by
    intro p hp hid
    have hr : reapParticipant now
        ({ p with session_id := none, is_waiting := true, last_seen := now } : Participant) =
        { p with session_id := none, is_waiting := true, last_seen := now } := by
      unfold reapParticipant
      rw [if_neg]
      intro hcon
      have hlt := hcon.1
      simp only at hlt
      omega
    have hmm := List.mem_map_of_mem (reapParticipant now) (hinv2 p hp hid)
    rw [hr] at hmm
    exact hmm
  simp only [skipChat] at hnone ⊢
  cases hf : (skipUpdates now sid inv.id st).participants.find? (fun p => p.id == inv.id) with
  | none =>
      exact ⟨hsess2, hq2, hinv2⟩
  | some updated =>
      rw [hf] at hnone
      simp only [] at hnone ⊢
      cases ho : (findOnlineCompatiblePartner now updated (skipUpdates now sid inv.id st)).2 with
      | none =>
          exact ⟨hsess3, hq3, hinv3⟩
      | some w =>
          exfalso
          rw [ho] at hnone
          simp only [] at hnone
          simp [createMatchedSession] at hnone

/-- Claim C3, witness: dana's skip against the two-participant store finds
no new partner, and egon's untouched row survives in the final store. -/
theorem c3_amended_witness :
    (egon ∈ skipStore.participants ∧ egon.id ≠ dana.id ∧
      ¬(egon.last_seen + 30 < 100 ∧ egon.is_online = true) ∧
      (skipChat 100 5 dana skipStore).2 = none) ∧
    egon ∈ (skipChat 100 5 dana skipStore).1.participants :=
  ⟨⟨by decide, by decide, by decide, by decide⟩,
    (c3_amended 100 5 dana skipStore egon (by decide) (by decide) (by decide) (by decide)).2.1⟩

end HiddenVoices
